import Mathlib

/-!
Verification of the llm-tools-server chat-completion orchestration pipeline.

Shallow embedding of the relevant source files:
  src/core/chat_models.py      message and tool-call data model
  src/core/chat.py             count_tokens, limit_messages,
                               get_unanswered_tool_calls, remove_trail_tool_calls
  src/core/tools/tools.py      TOOLS registry, execute_tools_if_needed
  src/core/tools/tool_ping_pong.py  ToolPingPong
  src/core/tools/utils.py      build_tool_call
  src/core/routers/router_auth.py   bearer matching, auth cache, check_auth
  src/core/routers/router_chat_completions.py  the request pipeline
  src/mcpl/wrappers.py         capability-server fan-out

Python dict/list state is modelled by explicit values; in-place mutation is
modelled by returning the new value; network calls are modelled by oracle
functions plus an explicit event trace.
-/

namespace LlmToolsServer

/-! ## Data model (src/core/chat_models.py)

ChatMessage is a sum type over the System/User/Assistant/Tool pydantic
classes.  The content field may be a string or a list of content items in
the source; only len(str(content)) and equality are ever used by the core
logic, so content is modelled by its serialized string form.  Fields that
the core logic never reads (refusal, audio, sampling parameters) are
omitted.  The system constructor covers both the "system" and "developer"
role literals of ChatMessageSystem. -/

structure ToolCallFunction where
  name : String
  arguments : String
  deriving DecidableEq, Repr

structure ToolCall where
  id : String
  function : ToolCallFunction
  deriving DecidableEq, Repr

inductive ChatMessage where
  | system (developer : Bool) (content : String) (name : Option String)
  | user (content : String) (name : Option String)
  | assistant (content : String) (name : Option String)
      (tool_calls : Option (List ToolCall))
  | tool (content : String) (tool_call_id : Option String)
  deriving DecidableEq, Repr

namespace ChatMessage

/-- The role discriminator string of a message, as pydantic stores it. -/
def role : ChatMessage → String
  | .system dev _ _ => if dev then "developer" else "system"
  | .user _ _ => "user"
  | .assistant _ _ _ => "assistant"
  | .tool _ _ => "tool"

/-- The serialized content of a message (str(message.content) in Python). -/
def content : ChatMessage → String
  | .system _ c _ => c
  | .user c _ => c
  | .assistant c _ _ => c
  | .tool c _ => c

/-- Python isinstance(m, ChatMessageSystem). -/
def isSystem : ChatMessage → Bool
  | .system _ _ _ => true
  | _ => false

/-- Python isinstance(m, ChatMessageUser). -/
def isUser : ChatMessage → Bool
  | .user _ _ => true
  | _ => false

end ChatMessage

/-! ## src/core/chat.py -/

/-- count_tokens: int(max(1, len(str(message.content))) / 4.).  The float
division truncates toward zero, which on naturals is floor division. -/
def count_tokens (m : ChatMessage) : Nat :=
  (max 1 m.content.length) / 4

/-- The walk of limit_messages over the reversed message list.  tok is the
running total (pre-charged with the cost of every System message); a System
message is appended unconditionally; the first non-System message whose cost
would push the total over the limit stops the whole walk. -/
def limitLoop (limit : Nat) : Nat → List ChatMessage → List ChatMessage
  | _, [] => []
  | tok, m :: rest =>
    if m.isSystem then m :: limitLoop limit tok rest
    else
      let mt := count_tokens m
      if tok + mt > limit then []
      else m :: limitLoop limit (tok + mt) rest

/-- limit_messages from src/core/chat.py.  MESSAGES_TOK_LIMIT is imported
from core.globals in the source but not defined under src, so the budget is
an explicit parameter here.  The source reverses the input list in place and
builds new_messages in walk order, reversing it before returning; the
in-place reversal of the argument is modelled separately by
limit_messages_full. -/
def limit_messages (limit : Nat) (messages : List ChatMessage) : List ChatMessage :=
  let tok0 := ((messages.filter ChatMessage.isSystem).map count_tokens).sum
  (limitLoop limit tok0 messages.reverse).reverse

/-- The full effect of limit_messages: first component is the final state of
the callers list argument (reversed in place by messages.reverse() and never
restored), second is the returned fresh list. -/
def limit_messages_full (limit : Nat) (messages : List ChatMessage) :
    List ChatMessage × List ChatMessage :=
  (messages.reverse, limit_messages limit messages)

/-- Python truthiness filter on an optional tool_call_id: the walrus guard
in get_unanswered_tool_calls keeps only ids that are non-None and non-empty. -/
def truthyId : Option String → Option String
  | some s => if s = "" then none else some s
  | none => none

/-- The set of answered tool-call ids: tool_call_id values of Tool messages,
filtered by truthiness. -/
def answeredIds (messages : List ChatMessage) : List String :=
  messages.filterMap fun m => match m with
    | .tool _ tid => truthyId tid
    | _ => none

/-- get_unanswered_tool_calls from src/core/chat.py: all tool calls on
Assistant messages (with a truthy tool_calls list) whose id is not answered
by any Tool message in the list. -/
def get_unanswered_tool_calls (messages : List ChatMessage) : List ToolCall :=
  messages.flatMap fun m => match m with
    | .assistant _ _ (some tcs) =>
      if tcs.isEmpty then []
      else tcs.filter fun tc => ¬ (answeredIds messages).contains tc.id
    | _ => []

/-- The loop body of remove_trail_tool_calls for one message: an Assistant
message with a truthy tool-call list has every unanswered call removed, and
the list set to None when it becomes empty; every other message is left
unchanged. -/
def pruneMessage (unansweredIds : List String) (m : ChatMessage) : ChatMessage :=
  match m with
  | .assistant c n (some tcs) =>
    if tcs.isEmpty then m
    else
      let tcs2 := tcs.filter fun tc => ¬ unansweredIds.contains tc.id
      .assistant c n (if tcs2.isEmpty then none else some tcs2)
  | _ => m

/-- remove_trail_tool_calls from src/core/chat.py.  The source mutates the
Assistant messages in place; this returns the mutated list. -/
def remove_trail_tool_calls (messages : List ChatMessage) : List ChatMessage :=
  messages.map (pruneMessage ((get_unanswered_tool_calls messages).map ToolCall.id))

/-! ## JSON values

A small model of Python JSON values, used for tool-call arguments
(json.loads results) and upstream response bodies.  Numbers are modelled as
integers; this suffices for every claim. -/

inductive Json where
  | null
  | bool (b : Bool)
  | num (n : Int)
  | str (s : String)
  | arr (elems : List Json)
  | obj (fields : List (String × Json))

namespace Json

/-- Python dict .get on a JSON object: first binding of the key, None when
the key is absent or the value is not an object.  (On a non-dict the source
would raise; no claim exercises that path.) -/
def getField : Json → String → Option Json
  | .obj fields, k => (fields.find? fun p => p.1 = k).map Prod.snd
  | _, _ => none

/-- Python dict item assignment d[k] = v: replace the value of an existing
key in place, else append the new binding at the end (dict insertion order).
Leaves a non-object unchanged (the source would raise there; no claim
exercises that path). -/
def setField : Json → String → Json → Json
  | .obj fields, k, v =>
    if fields.any fun p => p.1 = k then
      .obj (fields.map fun p => if p.1 = k then (k, v) else p)
    else
      .obj (fields ++ [(k, v)])
  | j, _, _ => j

end Json

/-! ## src/core/tools/ : the local tool registry and executor

Tool is the chat_tools.tool_usage.Tool interface (an external package):
a name plus validate and execute operations.  The tool context only carries
the shared HTTP session, which no local tool reads, so it is dropped.
json.loads is external library code and is modelled by a parse oracle
passed explicitly: parse args = none models a json.JSONDecodeError. -/

structure Tool where
  name : String
  validate : ToolCall → Json → Bool × List ChatMessage
  execute : ToolCall → Json → Bool × List ChatMessage

/-- build_tool_call from src/core/tools/utils.py. -/
def build_tool_call (content : String) (tool_call : ToolCall) : ChatMessage :=
  .tool content (some tool_call.id)

/-- ToolPingPong from src/core/tools/tool_ping_pong.py.  The Python type
repr inside the first validation error string is abbreviated. -/
def ToolPingPong : Tool where
  name := "ping_pong"
  validate := fun tool_call args =>
    match args.getField "message" with
    | some (.str message) =>
      if message ≠ "ping" then
        (false, [build_tool_call
          ("Error: Expected message \x27ping\x27, got \x27" ++ message ++ "\x27") tool_call])
      else
        (true, [])
    | _ =>
      (false, [build_tool_call
        "Error: Expected type message str, got other" tool_call])
  execute := fun tool_call _ => (true, [build_tool_call "pong" tool_call])

/-- The TOOLS registry from src/core/tools/tools.py.  In the source the
single candidate entry ToolPingPong() is commented out, so the registry is
empty. -/
def TOOLS : List Tool := []

/-- The suffix of messages strictly after the last User message, computed
on the reversed list as in execute_tools_if_needed (insert(0, m) keeps
original order). -/
def sinceLastUserRev : List ChatMessage → List ChatMessage
  | [] => []
  | m :: rest => if m.isUser then [] else m :: sinceLastUserRev rest

/-- messages_since_last_user_msg from execute_tools_if_needed. -/
def messages_since_last_user (messages : List ChatMessage) : List ChatMessage :=
  (sinceLastUserRev messages.reverse).reverse

/-- The body of the executor loop for one unanswered tool call: look the
tool up by function name (first match, skip when absent), parse the
arguments (error Tool message on failure), validate (its messages are
always appended; stop when not ok), then execute and append its messages. -/
def handle_tool_call (registry : List Tool) (parse : String → Option Json)
    (tool_call : ToolCall) : List ChatMessage :=
  match registry.filter fun t => t.name = tool_call.function.name with
  | [] => []
  | t :: _ =>
    match parse tool_call.function.arguments with
    | none =>
      [build_tool_call
        ("Error: invalid JSON in arguments: " ++ tool_call.function.arguments) tool_call]
    | some args =>
      let v := t.validate tool_call args
      if v.1 then v.2 ++ (t.execute tool_call args).2 else v.2

/-- The accumulator loop of execute_tools_if_needed: tool_res_messages
starts empty and each call appends its messages. -/
def execLoop (registry : List Tool) (parse : String → Option Json) :
    List ToolCall → List ChatMessage → List ChatMessage
  | [], acc => acc
  | tc :: rest, acc => execLoop registry parse rest (acc ++ handle_tool_call registry parse tc)

/-- execute_tools_if_needed from src/core/tools/tools.py, generalized over
the registry: collect the messages since the last User message, compute the
unanswered tool calls there, and run the executor loop over them. -/
def execute_tools_with_registry (registry : List Tool) (parse : String → Option Json)
    (messages : List ChatMessage) : List ChatMessage :=
  execLoop registry parse
    (get_unanswered_tool_calls (messages_since_last_user messages)) []

/-- execute_tools_if_needed as shipped: the registry is the (empty) TOOLS
list. -/
def execute_tools_if_needed (parse : String → Option Json)
    (messages : List ChatMessage) : List ChatMessage :=
  execute_tools_with_registry TOOLS parse messages

/-! ## src/core/routers/router_auth.py

Bearer-token authentication with a TTL cache.  time.time() is modelled by
an explicit integer now parameter; the identity-service call
fetch_auth_item is modelled by an oracle fetch : String → Option AuthItem
(some item models a 200 response whose body contains an auth object, none
models every other response).  The shared cache dict is threaded explicitly
as an association list with dict update semantics. -/

/-- Python re whitespace class \s, restricted to ASCII (tokens in bearer
headers are ASCII). -/
def isPySpace (c : Char) : Bool :=
  c = ' ' ∨ c = '\t' ∨ c = '\n' ∨ c = '\r' ∨ c = Char.ofNat 11 ∨ c = Char.ofNat 12

/-- The trailing part of the regex MATCH_BEARER after the whitespace run:
a group (.+) followed by $.  In a non-multiline Python pattern, dot does
not match a newline and $ also matches just before one final newline, so a
suffix t matches (.+)$ exactly when, after discarding one optional final
newline, it is nonempty and newline-free. -/
def tailTok (t : List Char) : Option (List Char) :=
  let t2 := if t.getLast? = some '\n' then t.dropLast else t
  if t2.isEmpty then none
  else if t2.all fun c => c ≠ '\n' then some t2
  else none

/-- The \s+(.+)$ part of MATCH_BEARER with greedy backtracking: consume at
least one whitespace character, preferring the longest whitespace run that
still leaves a valid (.+)$ suffix. -/
def wsThenTok : List Char → Option (List Char)
  | [] => none
  | c :: rest =>
    if isPySpace c then
      match wsThenTok rest with
      | some tok => some tok
      | none => tailTok rest
    else none

/-- MATCH_BEARER.match(header): the compiled pattern is
caret Bearer \s+(.+) dollar; returns the captured token group. -/
def matchBearer (s : String) : Option String :=
  let cs := s.toList
  if cs.take 6 = "Bearer".toList then
    (wsThenTok (cs.drop 6)).map fun tok => String.mk tok
  else none

structure AuthItem where
  api_key : String
  scope : String
  created_at : String
  user_id : Int
  user_email : String
  deriving DecidableEq, Repr

structure CacheAuthItem where
  item : AuthItem
  cached_ts : Int
  deriving DecidableEq, Repr

def CACHE_ITEM_EXPIRATION_TIME : Int := 360

/-- auth_s_left from router_auth.py, with the current time passed
explicitly. -/
def auth_s_left (now : Int) (item : CacheAuthItem) : Int :=
  CACHE_ITEM_EXPIRATION_TIME - (now - item.cached_ts)

/-- The shared auth cache dict, keyed by extracted api key. -/
abbrev AuthCache := List (String × CacheAuthItem)

/-- Python dict .get. -/
def cacheGet (cache : AuthCache) (k : String) : Option CacheAuthItem :=
  (cache.find? fun p => p.1 = k).map Prod.snd

/-- Python dict item assignment: replace an existing binding in place, else
append in insertion order. -/
def cacheSet (cache : AuthCache) (k : String) (v : CacheAuthItem) : AuthCache :=
  if cache.any fun p => p.1 = k then
    cache.map fun p => if p.1 = k then (k, v) else p
  else cache ++ [(k, v)]

structure CheckAuthResult where
  result : Option AuthItem
  cache : AuthCache
  identity_calls : Nat

/-- AuthRouter._check_auth: falsy or non-Bearer headers yield no identity
(and no network call); a cached, unexpired entry is returned without a
network call; otherwise the identity service is called with the original
header and a success is cached at the current time (failures are not
cached). -/
def check_auth (fetch : String → Option AuthItem) (now : Int) (cache : AuthCache)
    (authorization : Option String) : CheckAuthResult :=
  match authorization with
  | none => ⟨none, cache, 0⟩
  | some header =>
    if header = "" then ⟨none, cache, 0⟩
    else
      match matchBearer header with
      | none => ⟨none, cache, 0⟩
      | some api_key =>
        let hit : Option AuthItem :=
          match cacheGet cache api_key with
          | some item => if auth_s_left now item > 0 then some item.item else none
          | none => none
        match hit with
        | some a => ⟨some a, cache, 0⟩
        | none =>
          match fetch header with
          | some item => ⟨some item, cacheSet cache api_key ⟨item, now⟩, 1⟩
          | none => ⟨none, cache, 1⟩

/-! ## src/mcpl/ : capability servers and the fan-out client

Each per-server network interaction is summarized by an oracle giving its
outcome: a raised exception, or an HTTP response with a status and (for 200
responses) an optionally successful body parse.  asyncio.gather preserves
the enumeration order of the server list in its result list. -/

/-- MCPLServer from src/mcpl/repositories/repo_mcpl_servers.py (the
database id column is irrelevant to the fan-out and omitted). -/
structure MCPLServer where
  user_id : Int
  address : String
  is_active : Bool
  deriving DecidableEq, Repr

/-- The outcome of one per-server network call. -/
inductive FetchOutcome (α : Type) where
  | exn
  | resp (status : Nat) (parsed : Option α)

/-- The per-server try/except body shared by the three fan-out wrappers: a
200 response with a well-parsed body contributes its items; a non-200
response is logged and contributes []; any exception (network failure or
body parse error) is caught, logged, and contributes []. -/
def fetch_result {α : Type} : FetchOutcome (List α) → List α
  | .exn => []
  | .resp status parsed =>
    if status = 200 then
      match parsed with
      | some xs => xs
      | none => []
    else []

/-- ChatTool lives in the external chat_tools package; the fan-out treats
its values as opaque payloads. -/
structure ChatTool where
  data : Json

/-- ToolProps from src/mcpl/wrappers.py. -/
structure ToolProps where
  tool_name : String
  system_prompt : Option String
  depends_on : Option (List String)
  deriving DecidableEq, Repr

/-- get_mcpl_tools from src/mcpl/wrappers.py: fan out GET /tools to every
server and concatenate the per-server results in enumeration order. -/
def get_mcpl_tools (outcome : MCPLServer → FetchOutcome (List ChatTool))
    (servers : List MCPLServer) : List ChatTool :=
  (servers.map fun s => fetch_result (outcome s)).flatten

/-- get_mcpl_tool_props from src/mcpl/wrappers.py: fan out GET /tools-props. -/
def get_mcpl_tool_props (outcome : MCPLServer → FetchOutcome (List ToolProps))
    (servers : List MCPLServer) : List ToolProps :=
  (servers.map fun s => fetch_result (outcome s)).flatten

/-- mcpl_tools_execute from src/mcpl/wrappers.py: fan out POST
/tools-execute with the user id and message list; each server returns
decoded tool-response messages. -/
def mcpl_tools_execute (outcome : MCPLServer → FetchOutcome (List ChatMessage))
    (servers : List MCPLServer) (_user_id : Int) (_messages : List ChatMessage) :
    List ChatMessage :=
  (servers.map fun s => fetch_result (outcome s)).flatten

/-- get_active_servers from src/mcpl/servers.py: the per-user servers from
the repository, extended with the configured default servers (owner id -1,
active), filtered to the active ones. -/
def get_active_servers (user_servers : List MCPLServer) (default_addresses : List String) :
    List MCPLServer :=
  (user_servers ++ default_addresses.map fun a => MCPLServer.mk (-1) a true).filter
    fun s => s.is_active

/-! ## src/core/routers/router_chat_completions.py

The request pipeline.  All network interaction is summarized by an Oracles
record; the order of outbound calls is recorded in an event trace whose
order mirrors the statement order of _chat_completions (the upstream POST
is issued by the response generator after every other step). -/

/-- pydantic model_dump of a message, reduced to the fields the model
carries. -/
def ChatMessage.model_dump : ChatMessage → Json
  | .system dev c n =>
    .obj [("role", .str (if dev then "developer" else "system")),
          ("content", .str c),
          ("name", match n with | some s => .str s | none => .null)]
  | .user c n =>
    .obj [("role", .str "user"), ("content", .str c),
          ("name", match n with | some s => .str s | none => .null)]
  | .assistant c n tcs =>
    .obj [("role", .str "assistant"), ("content", .str c),
          ("name", match n with | some s => .str s | none => .null),
          ("tool_calls",
            match tcs with
            | none => .null
            | some l => .arr (l.map fun tc =>
                .obj [("id", .str tc.id), ("type", .str "function"),
                      ("function", .obj [("name", .str tc.function.name),
                                         ("arguments", .str tc.function.arguments)])]))]
  | .tool c tid =>
    .obj [("role", .str "tool"), ("content", .str c),
          ("tool_call_id", match tid with | some s => .str s | none => .null)]

/-- The SSE stream produced by proxy_stream_response: an optional leading
synthetic tool_res_messages frame followed by the upstream chunks relayed
verbatim. -/
structure StreamOut where
  toolFrame : Option Json
  chunks : List String

inductive GatewayResponse where
  | err (status : Nat) (body : Json)
  | nonStream (body : Json)
  | stream (out : StreamOut)

/-- error_constructor from src/core/routers/schemas.py. -/
def error_constructor (message : String) (error_type : String) (code : String)
    (status_code : Nat) : GatewayResponse :=
  .err status_code (Json.obj [("error", Json.obj
    [("message", .str message), ("type", .str error_type), ("code", .str code)])])

/-- AuthRouter._auth_error_response. -/
def auth_error_response : GatewayResponse :=
  error_constructor "Invalid authentication" "invalid_request_error" "invalid_api_key" 401

/-- compose_system_message from router_chat_completions.py: when any
ToolProps were fetched, extend the base prompt with the nonempty
system_prompt fragments joined by blank lines. -/
def compose_system_message (props : List ToolProps) : ChatMessage :=
  let base := "You are a helpful AI assistant."
  match props with
  | [] => .system false base none
  | _ =>
    let how := String.intercalate "\n\n" (props.filterMap fun p =>
      match p.system_prompt with
      | some s => if s = "" then none else some s
      | none => none)
    .system false (base ++ "\nHow to use TOOLS:\n" ++ how) none

/-- The body produced by proxy_non_stream_response: an unparseable upstream
body yields a fixed error object; otherwise the parsed body, with a
tool_res_messages field set only when the tool-result list is nonempty. -/
def proxy_non_stream_response (upstreamBody : Option Json)
    (tool_res_messages : List ChatMessage) : Json :=
  match upstreamBody with
  | none => Json.obj [("error", .str "Failed to parse response from LLM proxy")]
  | some response_data =>
    if tool_res_messages.isEmpty then response_data
    else response_data.setField "tool_res_messages"
      (.arr (tool_res_messages.map ChatMessage.model_dump))

/-- The stream produced by proxy_stream_response: a leading synthetic frame
only when the tool-result list is nonempty, then the upstream chunks. -/
def proxy_stream_response (model : String) (now : Int) (upstreamChunks : List String)
    (tool_res_messages : List ChatMessage) : StreamOut where
  toolFrame :=
    if tool_res_messages.isEmpty then none
    else some (Json.obj
      [("id", .str "XXX"), ("object", .str "tool_res_messages"),
       ("created", .num now), ("model", .str model), ("choices", .arr []),
       ("tool_res_messages", .arr (tool_res_messages.map ChatMessage.model_dump))])
  chunks := upstreamChunks

/-- convert_messages_for_openai_format from src/openai_wrappers/utils.py
copies each message, rewriting only non-string structured content items;
with content modelled by its serialized string it changes nothing. -/
def convert_messages_for_openai_format (messages : List ChatMessage) : List ChatMessage :=
  messages.map fun m => m

/-- The request envelope fields of ChatPost that the pipeline reads. -/
structure ChatPost where
  model : String
  messages : List ChatMessage
  stream : Bool
  deriving DecidableEq, Repr

/-- The oracle record summarizing every external collaborator of one
request: identity service, the per-user server repository and configured
defaults, the per-server capability endpoints, the upstream completion
service, json.loads, the clock, and the token budget MESSAGES_TOK_LIMIT
(imported from core.globals in the source but not defined under src). -/
structure Oracles where
  fetchAuth : String → Option AuthItem
  now : Int
  userServers : List MCPLServer
  defaultServers : List String
  propsOut : MCPLServer → FetchOutcome (List ToolProps)
  execOut : MCPLServer → FetchOutcome (List ChatMessage)
  upstreamBody : Option Json
  upstreamChunks : List String
  parse : String → Option Json
  tokLimit : Nat

/-- One outbound network interaction (or pipeline stage marker) of a
request, in the order the handler performs them. -/
inductive Event where
  | identityCall
  | propsCall (address : String)
  | localToolsResolved (messages : List ChatMessage)
  | mcplExecCall (address : String)
  | upstreamCall (messages : List ChatMessage)
  deriving DecidableEq, Repr

/-- The active capability-server set of the request. -/
def active_servers (o : Oracles) : List MCPLServer :=
  get_active_servers o.userServers o.defaultServers

/-- Whether _chat_completions prepends a synthetic system message: the
message list is nonempty and its first role is not system or developer. -/
def needs_system_message (post : ChatPost) : Bool :=
  match post.messages with
  | [] => false
  | m :: _ => if m.role = "system" ∨ m.role = "developer" then false else true

/-- The message list after the optional system-message prepend. -/
def pipeline_messages1 (o : Oracles) (post : ChatPost) : List ChatMessage :=
  if needs_system_message post then
    compose_system_message (get_mcpl_tool_props o.propsOut (active_servers o)) :: post.messages
  else post.messages

/-- The locally resolved tool-result messages of the request. -/
def pipeline_local_res (o : Oracles) (post : ChatPost) : List ChatMessage :=
  execute_tools_if_needed o.parse (pipeline_messages1 o post)

/-- The capability-server tool-result messages of the request. -/
def pipeline_mcpl_res (o : Oracles) (post : ChatPost) (user_id : Int) : List ChatMessage :=
  mcpl_tools_execute o.execOut (active_servers o) user_id (pipeline_messages1 o post)

/-- tool_res_messages: local results then capability-server results. -/
def pipeline_tool_res (o : Oracles) (post : ChatPost) (user_id : Int) : List ChatMessage :=
  pipeline_local_res o post ++ pipeline_mcpl_res o post user_id

/-- The conversation forwarded upstream: results appended, windowed,
pruned, converted. -/
def pipeline_final_messages (o : Oracles) (post : ChatPost) (user_id : Int) :
    List ChatMessage :=
  convert_messages_for_openai_format
    (remove_trail_tool_calls
      (limit_messages o.tokLimit
        (pipeline_messages1 o post ++ pipeline_tool_res o post user_id)))

/-- _chat_completions from src/core/routers/router_chat_completions.py:
authenticate (401 short-circuit), compose the system message if needed,
resolve local then capability-server tools, append the results, window and
prune, then relay the upstream response (streamed or buffered), surfacing
nonempty tool results to the caller.  The event list records the order of
the outbound calls. -/
def chat_completions (o : Oracles) (cache : AuthCache) (post : ChatPost)
    (authorization : Option String) : GatewayResponse × List Event :=
  let ca := check_auth o.fetchAuth o.now cache authorization
  let idEvents : List Event := if ca.identity_calls = 1 then [.identityCall] else []
  match ca.result with
  | none => (auth_error_response, idEvents)
  | some auth =>
    let servers := active_servers o
    let propsEvents : List Event :=
      if needs_system_message post then servers.map fun s => .propsCall s.address else []
    let localRes := pipeline_local_res o post
    let toolRes := pipeline_tool_res o post auth.user_id
    let events := idEvents ++ propsEvents
      ++ [.localToolsResolved localRes]
      ++ (servers.map fun s => .mcplExecCall s.address)
      ++ [.upstreamCall (pipeline_final_messages o post auth.user_id)]
    if post.stream then
      (GatewayResponse.stream (proxy_stream_response post.model o.now o.upstreamChunks toolRes),
       events)
    else
      (GatewayResponse.nonStream (proxy_non_stream_response o.upstreamBody toolRes), events)

/-! ## Derived measures used by the claims -/

/-- The estimated token cost of a message list under the count_tokens
heuristic. -/
def messagesCost (messages : List ChatMessage) : Nat :=
  (messages.map count_tokens).sum

/-- The cost of the System/Developer messages of a list (the amount
pre-charged against the budget by limit_messages). -/
def systemCost (messages : List ChatMessage) : Nat :=
  messagesCost (messages.filter ChatMessage.isSystem)

/-- The cost of the non-System messages of a list. -/
def nonSystemCost (messages : List ChatMessage) : Nat :=
  messagesCost (messages.filter fun m => !m.isSystem)

/-- A header fails the Bearer shape check: it is absent, or the MATCH_BEARER
regex does not match it. -/
def bearer_mismatch (authorization : Option String) : Prop :=
  ∀ s, authorization = some s → matchBearer s = none

/-- A per-server call failed in the sense of the spec: a network/parse
exception or a non-200 response. -/
def isServerFailure {α : Type} : FetchOutcome α → Prop
  | .exn => True
  | .resp status parsed => status ≠ 200 ∨ parsed = none

/-! ## Concrete sample inputs for witnesses and counterexamples -/

/-- A System message of content length 4, estimated cost 1. -/
def sysSample : ChatMessage := .system false "abcd" none

/-- A User message of content length 12, cost 3. -/
def usrSample : ChatMessage := .user "abcdefghijkl" none

/-- The literal arguments payload from the spec scenario. -/
def pingArgs : String := "\x7b\"message\":\"ping\"\x7d"

/-- An unanswered tool call to ping_pong with the ping arguments. -/
def pingCall : ToolCall := ⟨"call_1", ⟨"ping_pong", pingArgs⟩⟩

/-- A json.loads oracle that parses exactly the ping arguments payload. -/
def pingParse : String → Option Json := fun s =>
  if s = pingArgs then some (Json.obj [("message", Json.str "ping")]) else none

/-- A conversation whose last Assistant message carries the unanswered
ping_pong call. -/
def pingConvo : List ChatMessage :=
  [.user "hi" none, .assistant "" none (some [pingCall])]

/-- A tool call with a malformed arguments payload. -/
def badArgsCall : ToolCall := ⟨"c_bad", ⟨"ping_pong", "oops"⟩⟩

/-- A well-formed ping call following the malformed one. -/
def okCall : ToolCall := ⟨"c_ok", ⟨"ping_pong", pingArgs⟩⟩

/-- A conversation with a malformed call followed by a valid call. -/
def malformedConvo : List ChatMessage :=
  [.assistant "" none (some [badArgsCall, okCall])]

/-- A sample upstream JSON body. -/
def upstreamBodySample : Json := Json.obj [("a", Json.num 1)]

/-- A sample identity. -/
def authItemSample : AuthItem := ⟨"k", "scope", "2024", 7, "e@x"⟩

/-- An identity service that always fails. -/
def fetchNone : String → Option AuthItem := fun _ => none

/-- An identity service that always succeeds with the sample identity. -/
def fetchSome : String → Option AuthItem := fun _ => some authItemSample

/-- A baseline oracle record for pipeline witnesses: successful identity,
no capability servers, an upstream returning the sample body. -/
def oracleSample : Oracles where
  fetchAuth := fetchSome
  now := 0
  userServers := []
  defaultServers := []
  propsOut := fun _ => .exn
  execOut := fun _ => .exn
  upstreamBody := some upstreamBodySample
  upstreamChunks := []
  parse := pingParse
  tokLimit := 1000

/-- A minimal non-streaming request. -/
def postSample : ChatPost := ⟨"model-x", [ChatMessage.system false "s" none], false⟩

/-- Sample capability servers. -/
def serverA : MCPLServer := ⟨1, "http://a", true⟩

def serverB : MCPLServer := ⟨1, "http://b", true⟩

def serverC : MCPLServer := ⟨1, "http://c", true⟩

/-- A fan-out outcome where server b fails with a network exception and the
others succeed. -/
def toolsOutSample : MCPLServer → FetchOutcome (List ChatTool) := fun s =>
  if s.address = "http://b" then .exn
  else .resp 200 (some [⟨Json.str s.address⟩])

/-- Props outcomes: server b answers non-200, others succeed with one
props entry. -/
def propsOutSample : MCPLServer → FetchOutcome (List ToolProps) := fun s =>
  if s.address = "http://b" then .resp 500 none
  else .resp 200 (some [⟨"t_" ++ s.address, none, none⟩])

/-- Execute outcomes: server b returns an unparseable body, others succeed
with one tool message. -/
def execOutSample : MCPLServer → FetchOutcome (List ChatMessage) := fun s =>
  if s.address = "http://b" then .resp 200 none
  else .resp 200 (some [ChatMessage.tool ("res_" ++ s.address) (some "x")])

/-- A non-streaming request whose conversation carries the unanswered
ping_pong call. -/
def postPing : ChatPost := ⟨"model-x", pingConvo, false⟩

/-- A message list with one answered and one unanswered tool call on the
same Assistant message. -/
def pruneSample : List ChatMessage :=
  [.assistant "" none (some [⟨"a1", ⟨"t", "x"⟩⟩, ⟨"a2", ⟨"t", "y"⟩⟩]),
   .tool "r" (some "a1")]

/-! ## Helper lemmas about the windowing cost measures -/

theorem messagesCost_cons (m : ChatMessage) (l : List ChatMessage) :
    messagesCost (m :: l) = count_tokens m + messagesCost l := by
  simp [messagesCost]

theorem systemCost_cons (m : ChatMessage) (l : List ChatMessage) :
    systemCost (m :: l) = (if m.isSystem then count_tokens m else 0) + systemCost l := by
  simp only [systemCost, List.filter_cons]
  split <;> simp [messagesCost]

theorem nonSystemCost_cons (m : ChatMessage) (l : List ChatMessage) :
    nonSystemCost (m :: l) = (if m.isSystem then 0 else count_tokens m) + nonSystemCost l := by
  simp only [nonSystemCost, List.filter_cons]
  by_cases h : m.isSystem <;> simp [h, messagesCost]

theorem messagesCost_eq_system_add_nonSystem (l : List ChatMessage) :
    messagesCost l = systemCost l + nonSystemCost l := by
  induction l with
  | nil => rfl
  | cons m t ih =>
    rw [messagesCost_cons, systemCost_cons, nonSystemCost_cons, ih]
    by_cases h : m.isSystem <;> simp [h] <;> omega

theorem messagesCost_sublist {l₁ l₂ : List ChatMessage} (h : l₁.Sublist l₂) :
    messagesCost l₁ ≤ messagesCost l₂ := by
  induction h with
  | slnil => exact Nat.le_refl _
  | cons m _ ih => rw [messagesCost_cons]; omega
  | cons₂ m _ ih => rw [messagesCost_cons, messagesCost_cons]; omega

theorem systemCost_sublist {l₁ l₂ : List ChatMessage} (h : l₁.Sublist l₂) :
    systemCost l₁ ≤ systemCost l₂ :=
  messagesCost_sublist (h.filter ChatMessage.isSystem)

theorem filter_reverse_eq (p : ChatMessage → Bool) (l : List ChatMessage) :
    l.reverse.filter p = (l.filter p).reverse := by
  induction l with
  | nil => rfl
  | cons a t ih => simp [List.filter_append, ih, List.filter_cons]; split <;> simp

theorem messagesCost_reverse (l : List ChatMessage) :
    messagesCost l.reverse = messagesCost l := by
  induction l with
  | nil => rfl
  | cons m t ih => simp [messagesCost, List.map_append] at ih ⊢; omega

theorem systemCost_reverse (l : List ChatMessage) :
    systemCost l.reverse = systemCost l := by
  simp [systemCost, filter_reverse_eq, messagesCost_reverse]

theorem limitLoop_sublist (limit tok : Nat) (l : List ChatMessage) :
    (limitLoop limit tok l).Sublist l := by
  induction l generalizing tok with
  | nil => simp [limitLoop]
  | cons m rest ih =>
    simp only [limitLoop]
    split
    · exact (ih tok).cons₂ m
    · split
      · exact List.nil_sublist _
      · exact (ih _).cons₂ m

theorem limitLoop_budget (limit : Nat) (l : List ChatMessage) :
    ∀ tok : Nat, tok ≤ limit → tok + nonSystemCost (limitLoop limit tok l) ≤ limit := by
  induction l with
  | nil =>
    intro tok h
    simpa [limitLoop, nonSystemCost, messagesCost] using h
  | cons m rest ih =>
    intro tok h
    simp only [limitLoop]
    split
    · rename_i hsys
      have := ih tok h
      rw [nonSystemCost_cons]
      simp only [hsys, if_true]
      omega
    · rename_i hsys
      split
      · simpa [nonSystemCost, messagesCost] using h
      · rename_i hle
        have hle2 : tok + count_tokens m ≤ limit := by omega
        have := ih (tok + count_tokens m) hle2
        rw [nonSystemCost_cons]
        simp only [hsys, if_false, Bool.false_eq_true]
        omega

theorem limitLoop_all (limit : Nat) (l : List ChatMessage) :
    ∀ tok : Nat, tok + nonSystemCost l ≤ limit → limitLoop limit tok l = l := by
  induction l with
  | nil => intro tok _; rfl
  | cons m rest ih =>
    intro tok h
    rw [nonSystemCost_cons] at h
    simp only [limitLoop]
    split
    · rename_i hsys
      rw [ih tok (by simp [hsys] at h; omega)]
    · rename_i hsys
      simp only [hsys, if_false, Bool.false_eq_true] at h
      have hng : ¬ tok + count_tokens m > limit := by omega
      rw [if_neg hng, ih (tok + count_tokens m) (by omega)]

theorem systemCost_as_sum (messages : List ChatMessage) :
    ((messages.filter ChatMessage.isSystem).map count_tokens).sum = systemCost messages := rfl

/-! ## Claim theorems for the windowing algorithm -/

/-- C10: limit_messages leaves the callers list argument reversed in place
(newest-to-oldest), while the value it returns is a fresh window of the
original list: a sublist of the input in original oldest-to-newest order. -/
theorem limit_messages_reverses_input_returns_ordered_window
    (limit : Nat) (messages : List ChatMessage) :
    (limit_messages_full limit messages).1 = messages.reverse ∧
    (limit_messages_full limit messages).2 = limit_messages limit messages ∧
    (limit_messages limit messages).Sublist messages := by
  refine ⟨rfl, rfl, ?_⟩
  have h := (limitLoop_sublist limit
    (((messages.filter ChatMessage.isSystem).map count_tokens).sum) messages.reverse).reverse
  simpa [limit_messages] using h

/-- C5: the estimated token cost of the list returned by limit_messages
never exceeds the budget, provided the System messages alone do not already
exceed it. -/
theorem limit_messages_cost_within_budget (limit : Nat) (messages : List ChatMessage)
    (h : systemCost messages ≤ limit) :
    messagesCost (limit_messages limit messages) ≤ limit := by
  unfold limit_messages
  rw [systemCost_as_sum]
  set K := limitLoop limit (systemCost messages) messages.reverse with hK
  have hsplit := messagesCost_eq_system_add_nonSystem K
  have hbud := limitLoop_budget limit messages.reverse (systemCost messages) h
  rw [← hK] at hbud
  have hsys : systemCost K ≤ systemCost messages := by
    calc systemCost K ≤ systemCost messages.reverse :=
          systemCost_sublist (limitLoop_sublist _ _ _)
      _ = systemCost messages := systemCost_reverse messages
  rw [messagesCost_reverse, hsplit]
  omega

/-- C5 witness: a concrete list whose System cost fits a budget of 10. -/
theorem limit_messages_cost_within_budget_witness :
    systemCost [sysSample, usrSample] ≤ 10 ∧
    messagesCost (limit_messages 10 [sysSample, usrSample]) ≤ 10 :=
  ⟨by decide, limit_messages_cost_within_budget 10 [sysSample, usrSample] (by decide)⟩

/-- C2 counterexample: with a budget of 2, the System message (cost 1) is
older than the User message (cost 3) that stops the backward walk, so the
System message is dropped from the window even though the walk pre-charged
its cost. -/
theorem limit_messages_drops_old_system_counterexample :
    sysSample ∈ [sysSample, usrSample] ∧ sysSample.isSystem = true ∧
    sysSample ∉ limit_messages 2 [sysSample, usrSample] := by decide

/-- C2 amended: limit_messages keeps every System/Developer message only as
long as the budget stop does not cut the backward walk short of it; in
particular, whenever the estimated cost of the whole list fits the budget
the walk never stops and every message — every System message included — is
kept. -/
theorem limit_messages_keeps_all_when_total_fits (limit : Nat)
    (messages : List ChatMessage) (h : messagesCost messages ≤ limit) :
    limit_messages limit messages = messages := by
  have hpre : systemCost messages + nonSystemCost messages.reverse ≤ limit := by
    have h1 := messagesCost_eq_system_add_nonSystem messages
    have h2 : nonSystemCost messages.reverse = nonSystemCost messages := by
      simp [nonSystemCost, filter_reverse_eq, messagesCost_reverse]
    omega
  show (limitLoop limit (((messages.filter ChatMessage.isSystem).map count_tokens).sum)
    messages.reverse).reverse = messages
  rw [systemCost_as_sum, limitLoop_all limit messages.reverse (systemCost messages) hpre,
    List.reverse_reverse]

/-- C2 amended witness: a concrete list fitting a budget of 10 keeps its
System message. -/
theorem limit_messages_keeps_all_when_total_fits_witness :
    messagesCost [sysSample, usrSample] ≤ 10 ∧
    limit_messages 10 [sysSample, usrSample] = [sysSample, usrSample] :=
  ⟨by decide, limit_messages_keeps_all_when_total_fits 10 [sysSample, usrSample] (by decide)⟩

/-! ## Helper lemmas about tool-call pruning -/

theorem mem_answeredIds {messages : List ChatMessage} {x : String} :
    x ∈ answeredIds messages ↔
      (∃ content, ChatMessage.tool content (some x) ∈ messages) ∧ x ≠ "" := by
  unfold answeredIds
  rw [List.mem_filterMap]
  constructor
  · rintro ⟨m, hm, he⟩
    cases m with
    | tool c tid =>
      cases tid with
      | none => simp [truthyId] at he
      | some s =>
        by_cases hs : s = ""
        · simp [truthyId, hs] at he
        · simp only [truthyId, hs, if_neg, ite_false, Option.some.injEq] at he
          subst he
          exact ⟨⟨c, hm⟩, hs⟩
    | system d c n => simp at he
    | user c n => simp at he
    | assistant c n tcs => simp at he
  · rintro ⟨⟨c, hm⟩, hx⟩
    exact ⟨.tool c (some x), hm, by simp [truthyId, hx]⟩

theorem mem_get_unanswered {messages : List ChatMessage} {tc : ToolCall} :
    tc ∈ get_unanswered_tool_calls messages ↔
      (∃ c n tcs, ChatMessage.assistant c n (some tcs) ∈ messages ∧ tc ∈ tcs) ∧
        tc.id ∉ answeredIds messages := by
  unfold get_unanswered_tool_calls
  rw [List.mem_flatMap]
  constructor
  · rintro ⟨m, hm, hin⟩
    cases m with
    | assistant c n tcs =>
      cases tcs with
      | none => simp at hin
      | some l =>
        by_cases hl : l.isEmpty
        · simp [hl] at hin
        · simp only [hl, ite_false, Bool.false_eq_true, if_false, List.mem_filter,
            decide_eq_true_eq] at hin
          refine ⟨⟨c, n, l, hm, hin.1⟩, ?_⟩
          intro hmem
          exact hin.2 (by simpa using hmem)
    | system d c n => simp at hin
    | user c n => simp at hin
    | tool c tid => simp at hin
  · rintro ⟨⟨c, n, tcs, hm, htc⟩, hna⟩
    refine ⟨.assistant c n (some tcs), hm, ?_⟩
    have hne : tcs.isEmpty = false := by
      cases tcs with
      | nil => cases htc
      | cons a t => rfl
    simp only [hne, Bool.false_eq_true, if_false, List.mem_filter, decide_eq_true_eq]
    exact ⟨htc, fun hc => hna (by simpa using hc)⟩

theorem pruneMessage_tool (u : List String) (c : String) (tid : Option String) :
    pruneMessage u (.tool c tid) = .tool c tid := rfl

theorem answeredFn_prune (u : List String) (m : ChatMessage) :
    (match pruneMessage u m with | .tool _ tid => truthyId tid | _ => none) =
      (match m with | ChatMessage.tool _ tid => truthyId tid | _ => none) := by
  cases m with
  | assistant c n tcs =>
    cases tcs with
    | none => rfl
    | some l =>
      by_cases hl : l.isEmpty
      · simp [pruneMessage, hl]
      · simp [pruneMessage, hl]
  | system d c n => rfl
  | user c n => rfl
  | tool c tid => rfl

theorem answeredIds_map_prune (u : List String) (messages : List ChatMessage) :
    answeredIds (messages.map (pruneMessage u)) = answeredIds messages := by
  induction messages with
  | nil => rfl
  | cons m t ih =>
    simp only [List.map_cons]
    unfold answeredIds at ih ⊢
    rw [List.filterMap_cons, List.filterMap_cons, answeredFn_prune, ih]

theorem answeredIds_remove_trail (messages : List ChatMessage) :
    answeredIds (remove_trail_tool_calls messages) = answeredIds messages :=
  answeredIds_map_prune _ messages

theorem tool_mem_remove_trail {messages : List ChatMessage} {c : String}
    {tid : Option String} (h : ChatMessage.tool c tid ∈ messages) :
    ChatMessage.tool c tid ∈ remove_trail_tool_calls messages :=
  List.mem_map.mpr ⟨.tool c tid, h, rfl⟩

theorem surviving_call_answered {messages : List ChatMessage} {c : String}
    {n : Option String} {tcs : List ToolCall} {tc : ToolCall}
    (hmem : ChatMessage.assistant c n (some tcs) ∈ remove_trail_tool_calls messages)
    (htc : tc ∈ tcs) : tc.id ∈ answeredIds messages := by
  unfold remove_trail_tool_calls at hmem
  rw [List.mem_map] at hmem
  obtain ⟨m, hm, he⟩ := hmem
  cases m with
  | system d c0 n0 => simp [pruneMessage] at he
  | user c0 n0 => simp [pruneMessage] at he
  | tool c0 tid0 => simp [pruneMessage] at he
  | assistant c0 n0 tcs0opt =>
    cases tcs0opt with
    | none => simp [pruneMessage] at he
    | some tcs0 =>
      by_cases h0 : tcs0.isEmpty
      · rw [show pruneMessage ((get_unanswered_tool_calls messages).map ToolCall.id)
            (ChatMessage.assistant c0 n0 (some tcs0)) =
            ChatMessage.assistant c0 n0 (some tcs0) from by simp [pruneMessage, h0]] at he
        obtain ⟨rfl, rfl, h2⟩ := ChatMessage.assistant.inj he
        obtain rfl : tcs0 = tcs := Option.some.inj h2
        rw [List.isEmpty_iff] at h0
        subst h0
        cases htc
      · simp only [pruneMessage, h0, Bool.false_eq_true, if_false] at he
        obtain ⟨rfl, rfl, h2⟩ := ChatMessage.assistant.inj he
        split at h2
        · exact Option.noConfusion h2
        · replace h2 := Option.some.inj h2
          subst h2
          rw [List.mem_filter] at htc
          obtain ⟨htc0, hpred⟩ := htc
          rw [decide_eq_true_eq] at hpred
          by_contra hna
          have hun : tc ∈ get_unanswered_tool_calls messages :=
            mem_get_unanswered.mpr ⟨⟨c0, n0, tcs0, hm, htc0⟩, hna⟩
          exact hpred (by simpa using List.mem_map.mpr ⟨tc, hun, rfl⟩)

theorem get_unanswered_remove_trail (messages : List ChatMessage) :
    get_unanswered_tool_calls (remove_trail_tool_calls messages) = [] := by
  rw [List.eq_nil_iff_forall_not_mem]
  intro tc htc
  rw [mem_get_unanswered] at htc
  obtain ⟨⟨c, n, tcs, hmem, hin⟩, hna⟩ := htc
  have hans := surviving_call_answered hmem hin
  rw [answeredIds_remove_trail] at hna
  exact hna hans

theorem pruneMessage_nil (m : ChatMessage) : pruneMessage [] m = m := by
  cases m with
  | assistant c n tcs =>
    cases tcs with
    | none => rfl
    | some l =>
      by_cases hl : l.isEmpty
      · simp [pruneMessage, hl]
      · have hfil : (l.filter fun tc => ¬ ([] : List String).contains tc.id) = l :=
          List.filter_eq_self.mpr (by intro a _; simp)
        simp [pruneMessage, hl, hfil]
  | system d c n => rfl
  | user c n => rfl
  | tool c tid => rfl

theorem map_pruneMessage_nil (l : List ChatMessage) : l.map (pruneMessage []) = l := by
  induction l with
  | nil => rfl
  | cons m t ih => simp [pruneMessage_nil, ih]

/-- C4: after remove_trail_tool_calls, every tool call left on any
Assistant message is answered by a Tool message present in the result (no
dangling references), and the pruning is idempotent. -/
theorem remove_trail_no_dangling_and_idempotent (messages : List ChatMessage) :
    (∀ c n tcs, ChatMessage.assistant c n (some tcs) ∈ remove_trail_tool_calls messages →
      ∀ tc ∈ tcs, ∃ content,
        ChatMessage.tool content (some tc.id) ∈ remove_trail_tool_calls messages) ∧
    remove_trail_tool_calls (remove_trail_tool_calls messages) =
      remove_trail_tool_calls messages := by
  constructor
  · intro c n tcs hmem tc htc
    have hans := surviving_call_answered hmem htc
    rw [mem_answeredIds] at hans
    obtain ⟨⟨content, hctn⟩, _⟩ := hans
    exact ⟨content, tool_mem_remove_trail hctn⟩
  · show (remove_trail_tool_calls messages).map
      (pruneMessage ((get_unanswered_tool_calls (remove_trail_tool_calls messages)).map
        ToolCall.id)) = remove_trail_tool_calls messages
    rw [get_unanswered_remove_trail, List.map_nil, map_pruneMessage_nil]

/-- C4 witness: in the sample list the call a1 is answered and survives
pruning with its Tool message present; pruning twice equals pruning once. -/
theorem remove_trail_no_dangling_and_idempotent_witness :
    (∃ content, ChatMessage.tool content
      (some (ToolCall.mk "a1" ⟨"t", "x"⟩).id) ∈ remove_trail_tool_calls pruneSample) ∧
    remove_trail_tool_calls (remove_trail_tool_calls pruneSample) =
      remove_trail_tool_calls pruneSample := by
  have h := remove_trail_no_dangling_and_idempotent pruneSample
  exact ⟨h.1 "" none [⟨"a1", ⟨"t", "x"⟩⟩] (by decide) ⟨"a1", ⟨"t", "x"⟩⟩ (by decide), h.2⟩

/-! ## Claim theorems for the capability-server fan-out -/

theorem fetch_result_of_failure {α : Type} {r : FetchOutcome (List α)}
    (h : isServerFailure r) : fetch_result r = [] := by
  cases r with
  | exn => rfl
  | resp status parsed =>
    rcases h with h1 | h2
    · simp [fetch_result, h1]
    · subst h2
      simp only [fetch_result]
      split <;> rfl

/-- C8: when one capability server fails (network/parse exception or a
non-200 status), each fan-out operation still returns the concatenation of
the other servers results in enumeration order; the failing server
contributes nothing and never fails the aggregate call. -/
theorem mcpl_fanout_fault_isolated
    (toolsOut : MCPLServer → FetchOutcome (List ChatTool))
    (propsOut : MCPLServer → FetchOutcome (List ToolProps))
    (execOut : MCPLServer → FetchOutcome (List ChatMessage))
    (pre post : List MCPLServer) (bad : MCPLServer)
    (uid : Int) (messages : List ChatMessage)
    (h1 : isServerFailure (toolsOut bad))
    (h2 : isServerFailure (propsOut bad))
    (h3 : isServerFailure (execOut bad)) :
    get_mcpl_tools toolsOut (pre ++ bad :: post) =
      get_mcpl_tools toolsOut pre ++ get_mcpl_tools toolsOut post ∧
    get_mcpl_tool_props propsOut (pre ++ bad :: post) =
      get_mcpl_tool_props propsOut pre ++ get_mcpl_tool_props propsOut post ∧
    mcpl_tools_execute execOut (pre ++ bad :: post) uid messages =
      mcpl_tools_execute execOut pre uid messages ++
        mcpl_tools_execute execOut post uid messages := by
  refine ⟨?_, ?_, ?_⟩ <;>
    simp [get_mcpl_tools, get_mcpl_tool_props, mcpl_tools_execute,
      fetch_result_of_failure h1, fetch_result_of_failure h2, fetch_result_of_failure h3]

/-- C8 witness: server b fails three different ways across the three
operations while servers a and c respond, and every aggregate equals the
concatenation of the a and c results. -/
theorem mcpl_fanout_fault_isolated_witness :
    get_mcpl_tools toolsOutSample [serverA, serverB, serverC] =
      get_mcpl_tools toolsOutSample [serverA] ++ get_mcpl_tools toolsOutSample [serverC] ∧
    get_mcpl_tool_props propsOutSample [serverA, serverB, serverC] =
      get_mcpl_tool_props propsOutSample [serverA] ++
        get_mcpl_tool_props propsOutSample [serverC] ∧
    mcpl_tools_execute execOutSample [serverA, serverB, serverC] 7 [] =
      mcpl_tools_execute execOutSample [serverA] 7 [] ++
        mcpl_tools_execute execOutSample [serverC] 7 [] :=
  mcpl_fanout_fault_isolated toolsOutSample propsOutSample execOutSample
    [serverA] [serverC] serverB 7 []
    (by exact trivial) (by exact Or.inr rfl) (by exact Or.inr rfl)

/-! ## Claim theorems for authentication -/

/-- C6: a request whose Authorization header is absent or fails the Bearer
shape check returns the 401 invalid-authentication envelope with an empty
event trace: no identity-service call and no upstream (or capability
server) call is made. -/
theorem bad_auth_short_circuits (o : Oracles) (cache : AuthCache) (post : ChatPost)
    (authorization : Option String) (h : bearer_mismatch authorization) :
    chat_completions o cache post authorization =
      (error_constructor "Invalid authentication" "invalid_request_error" "invalid_api_key" 401,
        []) := by
  cases authorization with
  | none => rfl
  | some s =>
    have hm := h s rfl
    by_cases hs : s = ""
    · subst hs; rfl
    · simp [chat_completions, check_auth, hs, hm, auth_error_response]

/-- C6 witness: a Basic header short-circuits with the 401 envelope and an
empty trace. -/
theorem bad_auth_short_circuits_witness :
    chat_completions oracleSample [] postSample (some "Basic xyz") =
      (error_constructor "Invalid authentication" "invalid_request_error" "invalid_api_key" 401,
        []) :=
  bad_auth_short_circuits oracleSample [] postSample (some "Basic xyz")
    (by intro s hs; injection hs with h2; subst h2; decide)

theorem check_auth_calls_le_one (fetch : String → Option AuthItem) (now : Int)
    (cache : AuthCache) (authorization : Option String) :
    (check_auth fetch now cache authorization).identity_calls ≤ 1 := by
  unfold check_auth
  cases authorization with
  | none => simp
  | some header =>
    by_cases hs : header = ""
    · simp [hs]
    · simp only [hs, if_false]
      cases hm : matchBearer header with
      | none => simp
      | some tok =>
        cases hget : cacheGet cache tok with
        | none => cases hf : fetch header <;> simp [hget, hf]
        | some item =>
          by_cases hsl : auth_s_left now item > 0
          · simp [hget, hsl]
          · cases hf : fetch header <;> simp [hget, hsl, hf]

theorem check_auth_eq (fetch : String → Option AuthItem) (now : Int) (cache : AuthCache)
    {header tok : String} (hm : matchBearer header = some tok) :
    check_auth fetch now cache (some header) =
      match cacheGet cache tok with
      | some item =>
        if auth_s_left now item > 0 then ⟨some item.item, cache, 0⟩
        else
          match fetch header with
          | some it => ⟨some it, cacheSet cache tok ⟨it, now⟩, 1⟩
          | none => ⟨none, cache, 1⟩
      | none =>
        match fetch header with
        | some it => ⟨some it, cacheSet cache tok ⟨it, now⟩, 1⟩
        | none => ⟨none, cache, 1⟩ := by
  have hne : header ≠ "" := by
    intro h0
    subst h0
    rw [show matchBearer "" = none from rfl] at hm
    exact Option.noConfusion hm
  simp only [check_auth]
  rw [if_neg hne, hm]
  cases hget : cacheGet cache tok with
  | none => cases hf : fetch header <;> simp [hget, hf]
  | some item =>
    by_cases hsl : auth_s_left now item > 0
    · simp [hget, hsl]
    · cases hf : fetch header <;> simp [hget, hsl, hf]

theorem find_map_replace (l : List (String × CacheAuthItem)) (k : String) (v : CacheAuthItem) :
    ((l.map fun p => if p.1 = k then (k, v) else p).find? fun p => p.1 = k) =
      if l.any fun p => p.1 = k then some (k, v) else none := by
  induction l with
  | nil => simp
  | cons p rest ih =>
    by_cases hp : p.1 = k
    · simp [List.find?, hp]
    · have hd : (decide (p.1 = k)) = false := decide_eq_false hp
      simp [List.find?, hp, hd, ih]
      rw [hd, Bool.false_or]

theorem find_append_single (l : List (String × CacheAuthItem)) (k : String)
    (v : CacheAuthItem) (h : (l.any fun p => p.1 = k) = false) :
    ((l ++ [(k, v)]).find? fun p => p.1 = k) = some (k, v) := by
  induction l with
  | nil => simp [List.find?]
  | cons p rest ih =>
    simp only [List.any_cons, Bool.or_eq_false_iff] at h
    simp only [List.cons_append, List.find?]
    rw [h.1]
    exact ih h.2

theorem cacheGet_cacheSet_self (cache : AuthCache) (k : String) (v : CacheAuthItem) :
    cacheGet (cacheSet cache k v) k = some v := by
  unfold cacheSet
  cases hany : cache.any fun p => p.1 = k with
  | true =>
    rw [if_pos rfl]
    unfold cacheGet
    rw [find_map_replace, if_pos hany]
    rfl
  | false =>
    rw [if_neg (by simp)]
    unfold cacheGet
    rw [find_append_single cache k v hany]
    rfl

/-- C7 counterexample: with a failing identity service nothing is cached,
so two resolves of the same token 5 seconds apart (well within the 360s
TTL) each perform an identity-service call — two calls, not at most one. -/
theorem auth_cache_two_resolves_counterexample :
    (check_auth fetchNone 0 [] (some "Bearer T")).identity_calls = 1 ∧
    (check_auth fetchNone 5 (check_auth fetchNone 0 [] (some "Bearer T")).cache
      (some "Bearer T")).identity_calls = 1 ∧
    (5 : Int) - 0 < CACHE_ITEM_EXPIRATION_TIME :=
  ⟨by decide, by decide, by decide⟩

/-- C7 amended: resolve performs an identity-service call exactly when the
token is absent from the cache or its entry is expired (at least TTL old);
two resolves within the TTL window perform at most one identity call
provided the first resolve succeeds (failures are not cached); and an
entry at least TTL old forces a new identity call. -/
theorem auth_cache_ttl_behavior (fetch : String → Option AuthItem) (header tok : String)
    (now now2 : Int) (cache : AuthCache) (hm : matchBearer header = some tok) :
    ((check_auth fetch now cache (some header)).identity_calls = 1 ↔
      ∀ e, cacheGet cache tok = some e → auth_s_left now e ≤ 0) ∧
    (∀ a, (check_auth fetch now cache (some header)).result = some a →
      now ≤ now2 → now2 - now < CACHE_ITEM_EXPIRATION_TIME →
      (check_auth fetch now cache (some header)).identity_calls +
        (check_auth fetch now2 (check_auth fetch now cache (some header)).cache
          (some header)).identity_calls ≤ 1) ∧
    (∀ e, cacheGet cache tok = some e →
      CACHE_ITEM_EXPIRATION_TIME ≤ now - e.cached_ts →
      (check_auth fetch now cache (some header)).identity_calls = 1) := by
  refine ⟨?_, ?_, ?_⟩
  · rw [check_auth_eq fetch now cache hm]
    cases hget : cacheGet cache tok with
    | none =>
      cases hf : fetch header <;>
        simp [hf]
    | some item =>
      by_cases hsl : auth_s_left now item > 0
      · simp only [hsl, if_pos]
        constructor
        · intro h10
          exact absurd h10 (by decide)
        · intro hall
          have := hall item rfl
          omega
      · cases hf : fetch header <;> simp [hf, hsl] <;> omega
  · intro a hres hle hlt
    rw [check_auth_eq fetch now cache hm] at hres ⊢
    cases hget : cacheGet cache tok with
    | none =>
      simp only [hget] at hres ⊢
      cases hf : fetch header with
      | none => simp [hf] at hres
      | some it =>
        have hfresh : auth_s_left now2 (⟨it, now⟩ : CacheAuthItem) > 0 := by
          simp only [auth_s_left, CACHE_ITEM_EXPIRATION_TIME] at hlt ⊢
          omega
        simp only [hf,
          check_auth_eq fetch now2 (cacheSet cache tok ⟨it, now⟩) hm,
          cacheGet_cacheSet_self, if_pos hfresh]
        omega
    | some item =>
      simp only [hget] at hres ⊢
      by_cases hsl : auth_s_left now item > 0
      · simp only [if_pos hsl]
        have h2 := check_auth_calls_le_one fetch now2 cache (some header)
        simpa using h2
      · simp only [if_neg hsl] at hres ⊢
        cases hf : fetch header with
        | none => simp [hf] at hres
        | some it =>
          have hfresh : auth_s_left now2 (⟨it, now⟩ : CacheAuthItem) > 0 := by
            simp only [auth_s_left, CACHE_ITEM_EXPIRATION_TIME] at hlt ⊢
            omega
          simp only [hf,
            check_auth_eq fetch now2 (cacheSet cache tok ⟨it, now⟩) hm,
            cacheGet_cacheSet_self, if_pos hfresh]
          omega
  · intro e hget hexp
    have hsl : ¬ auth_s_left now e > 0 := by
      simp only [auth_s_left, CACHE_ITEM_EXPIRATION_TIME] at hexp ⊢
      omega
    rw [check_auth_eq fetch now cache hm]
    simp only [hget, if_neg hsl]
    cases hf : fetch header <;> simp [hf]

/-- C7 amended witness: a successful first resolve at time 0 followed by a
second resolve at time 5 performs one identity call in total. -/
theorem auth_cache_ttl_behavior_witness :
    (check_auth fetchSome 0 [] (some "Bearer T")).identity_calls +
      (check_auth fetchSome 5 (check_auth fetchSome 0 [] (some "Bearer T")).cache
        (some "Bearer T")).identity_calls ≤ 1 :=
  (auth_cache_ttl_behavior fetchSome "Bearer T" "T" 0 5 [] (by decide)).2.1
    authItemSample (by decide) (by decide) (by decide)

/-! ## Claim theorems for local tool resolution and response relay -/

theorem execLoop_eq_flatMap (registry : List Tool) (parse : String → Option Json)
    (calls : List ToolCall) (acc : List ChatMessage) :
    execLoop registry parse calls acc =
      acc ++ calls.flatMap (handle_tool_call registry parse) := by
  induction calls generalizing acc with
  | nil => simp [execLoop]
  | cons tc rest ih => simp [execLoop, ih]

/-- C1 counterexample: the ping_pong call of the sample conversation is
unanswered, yet the shipped executor produces no Tool message at all — the
TOOLS registry is empty (ToolPingPong is commented out), so the call is
skipped instead of yielding the pong message. -/
theorem ping_pong_not_executed_counterexample :
    pingCall ∈ get_unanswered_tool_calls (messages_since_last_user pingConvo) ∧
    execute_tools_if_needed pingParse pingConvo = [] :=
  ⟨by decide, by decide⟩

/-- C1 amended: were ToolPingPong registered, an unanswered ping_pong call
with arguments message=ping (the only unanswered call of the turn) would
yield exactly one synthetic Tool message with content pong and the calls
id; and in the pipeline, local tool resolution is always performed before
the upstream completion call (the localToolsResolved event precedes the
upstreamCall event in every authenticated trace). -/
theorem ping_pong_with_registered_tool (parse : String → Option Json)
    (messages : List ChatMessage) (tc : ToolCall)
    (h1 : get_unanswered_tool_calls (messages_since_last_user messages) = [tc])
    (h2 : tc.function.name = "ping_pong")
    (h3 : parse tc.function.arguments = some (Json.obj [("message", Json.str "ping")])) :
    execute_tools_with_registry [ToolPingPong] parse messages =
      [build_tool_call "pong" tc] ∧
    (∀ (o : Oracles) (cache : AuthCache) (post : ChatPost)
      (authorization : Option String) (auth : AuthItem),
      (check_auth o.fetchAuth o.now cache authorization).result = some auth →
      ∃ pre mid, (chat_completions o cache post authorization).2 =
        pre ++ Event.localToolsResolved (pipeline_local_res o post) :: mid
          ++ [Event.upstreamCall (pipeline_final_messages o post auth.user_id)]) := by
  constructor
  · unfold execute_tools_with_registry
    rw [h1, execLoop_eq_flatMap, List.nil_append, List.flatMap_cons, List.flatMap_nil,
      List.append_nil]
    unfold handle_tool_call
    have hf : ([ToolPingPong].filter fun t => t.name = tc.function.name) = [ToolPingPong] := by
      simp [ToolPingPong, h2]
    rw [hf, h3]
    simp [ToolPingPong, Json.getField]
  · intro o cache post authorization auth hres
    refine ⟨(if (check_auth o.fetchAuth o.now cache authorization).identity_calls = 1
        then [Event.identityCall] else [])
      ++ (if needs_system_message post
        then (active_servers o).map fun s => Event.propsCall s.address else []),
      (active_servers o).map fun s => Event.mcplExecCall s.address, ?_⟩
    simp only [chat_completions, hres]
    cases hstream : post.stream <;> simp [hstream]

/-- C1 amended witness: the conversation with the ping call under the
registered tool yields exactly the pong message, and the authenticated
sample pipeline run places local tool resolution before the upstream call. -/
theorem ping_pong_with_registered_tool_witness :
    execute_tools_with_registry [ToolPingPong] pingParse pingConvo =
      [build_tool_call "pong" pingCall] ∧
    (∃ pre mid, (chat_completions oracleSample [] postPing (some "Bearer T")).2 =
      pre ++ Event.localToolsResolved (pipeline_local_res oracleSample postPing) :: mid
        ++ [Event.upstreamCall
          (pipeline_final_messages oracleSample postPing authItemSample.user_id)]) := by
  have h := ping_pong_with_registered_tool pingParse pingConvo pingCall
    (by decide) (by decide) rfl
  exact ⟨h.1, h.2 oracleSample [] postPing (some "Bearer T") authItemSample (by decide)⟩

/-- C3 counterexample: with zero tool results the non-streaming relay
returns the upstream body untouched — it does not add an empty
tool_res_messages field, so the claimed field-extended body differs from
the actual response. -/
theorem non_stream_no_field_added_counterexample :
    proxy_non_stream_response (some upstreamBodySample) [] = upstreamBodySample ∧
    proxy_non_stream_response (some upstreamBodySample) [] ≠
      upstreamBodySample.setField "tool_res_messages" (Json.arr []) := by
  refine ⟨rfl, ?_⟩
  intro h
  rw [show proxy_non_stream_response (some upstreamBodySample) [] = upstreamBodySample
    from rfl] at h
  simp [upstreamBodySample, Json.setField] at h

/-- C3 amended: a non-streaming authenticated request with zero pending
tool results returns the upstream JSON body unmodified, with no
tool_res_messages field added (the field is only attached when the
tool-result list is nonempty). -/
theorem non_stream_empty_tools_returns_body (o : Oracles) (cache : AuthCache)
    (post : ChatPost) (authorization : Option String) (auth : AuthItem) (body : Json)
    (hstream : post.stream = false)
    (hauth : (check_auth o.fetchAuth o.now cache authorization).result = some auth)
    (hempty : pipeline_tool_res o post auth.user_id = [])
    (hbody : o.upstreamBody = some body) :
    (chat_completions o cache post authorization).1 = GatewayResponse.nonStream body := by
  simp only [chat_completions, hauth]
  simp [hstream, proxy_non_stream_response, hempty, hbody]

/-- C3 amended witness: the sample request with empty tool results returns
the sample upstream body unchanged. -/
theorem non_stream_empty_tools_returns_body_witness :
    (chat_completions oracleSample [] postSample (some "Bearer T")).1 =
      GatewayResponse.nonStream upstreamBodySample :=
  non_stream_empty_tools_returns_body oracleSample [] postSample (some "Bearer T")
    authItemSample upstreamBodySample rfl (by decide) (by decide) rfl

/-- C9 counterexample: the malformed-arguments call of the sample
conversation is unanswered and its payload fails to parse, yet the shipped
executor synthesizes nothing — the empty TOOLS registry skips the call
before its arguments are ever parsed. -/
theorem malformed_args_not_reported_counterexample :
    badArgsCall ∈ get_unanswered_tool_calls (messages_since_last_user malformedConvo) ∧
    pingParse badArgsCall.function.arguments = none ∧
    execute_tools_if_needed pingParse malformedConvo = [] :=
  ⟨by decide, rfl, by decide⟩

/-- C9 amended: for a registry that does know the tool, an unanswered call
whose arguments fail to parse contributes exactly the synthetic error Tool
message identifying the malformed payload, and resolution continues with
the preceding and following calls unaffected. -/
theorem malformed_args_isolated (registry : List Tool) (parse : String → Option Json)
    (messages : List ChatMessage) (pre post : List ToolCall) (bad : ToolCall)
    (h1 : get_unanswered_tool_calls (messages_since_last_user messages) = pre ++ bad :: post)
    (h2 : (registry.filter fun t => t.name = bad.function.name) ≠ [])
    (h3 : parse bad.function.arguments = none) :
    execute_tools_with_registry registry parse messages =
      pre.flatMap (handle_tool_call registry parse)
        ++ build_tool_call ("Error: invalid JSON in arguments: " ++ bad.function.arguments) bad
          :: post.flatMap (handle_tool_call registry parse) := by
  unfold execute_tools_with_registry
  rw [h1, execLoop_eq_flatMap, List.nil_append, List.flatMap_append, List.flatMap_cons]
  have hh : handle_tool_call registry parse bad =
      [build_tool_call ("Error: invalid JSON in arguments: " ++ bad.function.arguments) bad] := by
    unfold handle_tool_call
    cases hf : registry.filter fun t => t.name = bad.function.name with
    | nil => exact absurd hf h2
    | cons t rest => rw [h3]
  rw [hh]
  simp

/-- C9 amended witness: under the registered ping tool, the malformed call
yields the error message and the following valid call still executes. -/
theorem malformed_args_isolated_witness :
    execute_tools_with_registry [ToolPingPong] pingParse malformedConvo =
      ([] : List ToolCall).flatMap (handle_tool_call [ToolPingPong] pingParse)
        ++ build_tool_call ("Error: invalid JSON in arguments: "
            ++ badArgsCall.function.arguments) badArgsCall
          :: [okCall].flatMap (handle_tool_call [ToolPingPong] pingParse) :=
  malformed_args_isolated [ToolPingPong] pingParse malformedConvo [] [okCall] badArgsCall
    (by decide) (by exact List.cons_ne_nil _ _) rfl

end LlmToolsServer
